import Mathlib

/-
Verification of the gidari transactional write pipeline against its spec.

Shallow embedding of:
  - src/internal/storage/mongo.go   (receiveWrites, startSession, Upsert)
  - src/internal/storage/storage.go (Scheme, New)
  - src/internal/transport/request.go (newFetchConfig, flatten, flattenTimeseries)

External collaborators (the mongo driver, net/url, time.Format, the HTTP
client) are modelled as parameters: pure functions or Option/Except-valued
oracles supplied to the embedded functions. Go errors are the inductive
`MErr`; fmt.Errorf("...: %w", err) wrapping is `MErr.wrap`. A Go nil-pointer
dereference or nil-map write is the `Outcome.panic` result.
-/

namespace Gidari

/-- Go error values as produced by this repository: an external driver error,
a fmt.Errorf context wrap, the package-level ErrTransactionAborted, and the
ErrDNSNotSupported wrap that records the offending connection string. -/
inductive MErr where
  | external (msg : String)
  | wrap (ctx : String) (e : MErr)
  | txnAborted
  | dnsNotSupported (dns : String)
  deriving DecidableEq

/-- Rendering of an `MErr` as its Go error message, following the repository
format strings: `fmt.Errorf` wraps with a context prefix and a colon, and
`DNSNotSupportedError` is built from ErrDNSNotSupported via the format verb
pair percent-w colon percent-s over the connection string. -/
def errMessage : MErr → String
  | MErr.external m => m
  | MErr.wrap ctx e => ctx ++ (": ") ++ errMessage e
  | MErr.txnAborted => ("transaction aborted")
  | MErr.dnsNotSupported dns => ("dns is not supported: ") ++ dns

/-- Observable actions the mongo transaction worker performs against the
live physical session: starting a physical transaction, applying a queued
operation, committing, aborting. -/
inductive Act where
  | startTxn
  | commitTxn
  | abortTxn
  | applyOp (id : Nat)
  deriving DecidableEq

/-- The ids of the operations actually applied to the session, in order, as
read off an action trace. -/
def appliedIds (tr : List Act) : List Nat :=
  tr.filterMap (fun a => match a with
    | Act.applyOp n => some n
    | _ => none)

/-- Number of session rotations in an action trace: each rotation commits
the current physical transaction, so rotations are the commitTxn actions
emitted by the receive loop. -/
def rotations (tr : List Act) : Nat :=
  tr.countP (fun a => match a with
    | Act.commitTxn => true
    | _ => false)

/-- Embedding of the receive loop of Mongo.receiveWrites
(src/internal/storage/mongo.go, lines 62-95). Each element of `events` is
one operation received from txn.ch: its id, paired with whether the
lifetime ticker had fired by the moment the select statement runs (the
ticker case of the select is ready). `exec op` is the result of
opr(ctx, m): none on success, some e on failure. The state `err` is the
loop's latched error variable.

Faithful to the source: when the ticker case is selected the loop commits
and restarts the physical transaction and moves to the next channel
receive, so the operation just received is never applied; in the default
case a latched error makes the loop `continue` without applying the
operation. Commit/restart failures at a rotation panic the whole process
in the source and are outside this model. -/
def rwLoop (exec : Nat → Option MErr) : Option MErr → List (Nat × Bool) → List Act × Option MErr
  | err, [] => ([], err)
  | err, (op, fired) :: rest =>
    if fired then
      let r := rwLoop exec err rest
      (Act.commitTxn :: Act.startTxn :: r.1, r.2)
    else
      match err with
      | some e => rwLoop exec (some e) rest
      | none =>
        match exec op with
        | some e => rwLoop exec (some e) rest
        | none =>
          let r := rwLoop exec none rest
          (Act.applyOp op :: r.1, r.2)

/-- Embedding of Mongo.receiveWrites: runs the receive loop over all
operations received before txn.ch is closed, then wraps a latched
operation error as fmt.Errorf("error in transaction: %w", err). Returns
the action trace against the session and the function's error result. -/
def receiveWrites (exec : Nat → Option MErr) (events : List (Nat × Bool)) :
    List Act × Option MErr :=
  let r := rwLoop exec none events
  (r.1, r.2.map (MErr.wrap ("error in transaction")))

/-- Embedding of Mongo.startSession (src/internal/storage/mongo.go, lines
99-125). `startTxnErr` is the result of the initial sctx.StartTransaction;
`commitSig` is the boolean received from txn.commit (true when the caller
signalled commit; false when the caller wrote false or the channel was
closed, Go's zero value); `commitErr` / `abortErr` are the driver results
of CommitTransaction / AbortTransaction. The first component is the action
trace against the physical session, the second the list of values sent on
txn.done (the source sends the UseSession result exactly once). When
AbortTransaction succeeds the source falls through to `return nil`; it
returns ErrTransactionAborted only when the abort itself errors. -/
def startSession (startTxnErr : Option MErr) (exec : Nat → Option MErr)
    (events : List (Nat × Bool)) (commitSig : Bool)
    (commitErr abortErr : Option MErr) : List Act × List (Option MErr) :=
  match startTxnErr with
  | some e => ([], [some (MErr.wrap ("error starting transaction") e)])
  | none =>
    let r := receiveWrites exec events
    match r.2 with
    | some e => (Act.startTxn :: r.1, [some (MErr.wrap ("error receiving writes") e)])
    | none =>
      if commitSig then
        match commitErr with
        | some e => (Act.startTxn :: r.1 ++ [Act.commitTxn],
            [some (MErr.wrap ("commit transaction") e)])
        | none => (Act.startTxn :: r.1 ++ [Act.commitTxn], [none])
      else
        match abortErr with
        | some _ => (Act.startTxn :: r.1 ++ [Act.abortTxn], [some MErr.txnAborted])
        | none => (Act.startTxn :: r.1 ++ [Act.abortTxn], [none])

theorem rwLoop_rotations (exec : Nat → Option MErr) :
    ∀ (events : List (Nat × Bool)) (err : Option MErr),
      rotations (rwLoop exec err events).1 = (events.filter (fun ev => ev.2)).length := by
  intro events
  induction events with
  | nil => intro err; simp [rwLoop, rotations]
  | cons ev rest ih =>
    intro err
    obtain ⟨op, fired⟩ := ev
    by_cases hf : fired
    · subst hf
      simp [rwLoop, rotations, List.countP_cons] at *
      simpa [rotations] using ih err
    · simp only [Bool.not_eq_true] at hf
      subst hf
      cases err with
      | some e => simpa [rwLoop, rotations] using ih (some e)
      | none =>
        cases hop : exec op with
        | some e => simpa [rwLoop, hop, rotations] using ih (some e)
        | none => simpa [rwLoop, hop, rotations, List.countP_cons] using ih none

/-- C10: the worker consults the lifetime timer only upon receiving an
operation from the channel. In the receive loop the select statement runs
once per operation received, so the number of session rotations equals the
number of received operations at whose receipt the ticker had fired; in
particular a Txn that receives no operation performs no action at all, and
never rotates, however long it stays idle. -/
theorem c10_no_rotation_without_op (exec : Nat → Option MErr)
    (events : List (Nat × Bool)) :
    rotations (receiveWrites exec events).1 = (events.filter (fun ev => ev.2)).length ∧
    (receiveWrites exec ([] : List (Nat × Bool))).1 = [] := by
  constructor
  · simpa [receiveWrites] using rwLoop_rotations exec events none
  · simp [receiveWrites, rwLoop]

theorem rwLoop_drain (exec : Nat → Option MErr) (e : MErr) :
    ∀ (post : List (Nat × Bool)),
      (rwLoop exec (some e) post).2 = some e ∧
      appliedIds (rwLoop exec (some e) post).1 = [] := by
  intro post
  induction post with
  | nil => simp [rwLoop, appliedIds]
  | cons ev rest ih =>
    obtain ⟨op, fired⟩ := ev
    by_cases hf : fired
    · subst hf
      simpa [rwLoop, appliedIds] using ih
    · simp only [Bool.not_eq_true] at hf
      subst hf
      simpa [rwLoop] using ih

theorem rwLoop_pre_ok (exec : Nat → Option MErr) :
    ∀ (pre rest : List (Nat × Bool)),
      (∀ p ∈ pre, p.2 = false → exec p.1 = none) →
      ∃ tr0,
        rwLoop exec none (pre ++ rest)
          = (tr0 ++ (rwLoop exec none rest).1, (rwLoop exec none rest).2) ∧
        appliedIds tr0 = (pre.filter (fun p => !p.2)).map Prod.fst := by
  intro pre
  induction pre with
  | nil => intro rest _; exact ⟨[], by simp, by simp [appliedIds]⟩
  | cons p pre' ih =>
    intro rest hpre
    obtain ⟨op, fired⟩ := p
    by_cases hf : fired
    · subst hf
      obtain ⟨tr0, heq, happ⟩ := ih rest (fun q hq => hpre q (List.mem_cons_of_mem _ hq))
      refine ⟨Act.commitTxn :: Act.startTxn :: tr0, ?_, ?_⟩
      · simp [rwLoop, heq]
      · simpa [appliedIds] using happ
    · simp only [Bool.not_eq_true] at hf
      subst hf
      have hop : exec op = none := hpre (op, false) (List.mem_cons_self _ _) rfl
      obtain ⟨tr0, heq, happ⟩ := ih rest (fun q hq => hpre q (List.mem_cons_of_mem _ hq))
      refine ⟨Act.applyOp op :: tr0, ?_, ?_⟩
      · simp [rwLoop, hop, heq]
      · simpa [appliedIds] using happ

/-- C5: the first operation error is latched. If every operation applied
before `op` succeeded and `op` fails with `e0`, then — whatever the
operations after it do — the worker applies exactly the successful
operations submitted before `op`, in submission order (operations dequeued
while the ticker case was ready are dropped by the rotation branch and are
excluded by the filter); nothing at or after the failing operation is
applied, and the single value delivered on the done channel is that first
error wrapped as "error receiving writes: error in transaction: e0". -/
theorem c5_first_error_latched (exec : Nat → Option MErr)
    (pre post : List (Nat × Bool)) (op : Nat) (e0 : MErr) (sig : Bool)
    (commitErr abortErr : Option MErr)
    (hpre : ∀ p ∈ pre, p.2 = false → exec p.1 = none)
    (hop : exec op = some e0) :
    appliedIds (startSession none exec (pre ++ (op, false) :: post) sig commitErr abortErr).1
      = (pre.filter (fun p => !p.2)).map Prod.fst ∧
    (startSession none exec (pre ++ (op, false) :: post) sig commitErr abortErr).2
      = [some (MErr.wrap ("error receiving writes")
          (MErr.wrap ("error in transaction") e0))] := by
  obtain ⟨tr0, heq, happ⟩ := rwLoop_pre_ok exec pre ((op, false) :: post) hpre
  have hmid : rwLoop exec none ((op, false) :: post) = rwLoop exec (some e0) post := by
    simp [rwLoop, hop]
  obtain ⟨hd2, hd1⟩ := rwLoop_drain exec e0 post
  have hrw : receiveWrites exec (pre ++ (op, false) :: post)
      = (tr0 ++ (rwLoop exec (some e0) post).1,
         some (MErr.wrap ("error in transaction") e0)) := by
    simp [receiveWrites, heq, hmid, hd2]
  constructor
  · have h1 : (startSession none exec (pre ++ (op, false) :: post) sig commitErr abortErr).1
        = Act.startTxn :: (tr0 ++ (rwLoop exec (some e0) post).1) := by
      simp [startSession, hrw]
    rw [h1]
    have h2 : appliedIds (Act.startTxn :: (tr0 ++ (rwLoop exec (some e0) post).1))
        = appliedIds tr0 ++ appliedIds (rwLoop exec (some e0) post).1 := by
      simp [appliedIds]
    rw [h2, hd1, happ]
    simp
  · simp [startSession, hrw]

/-- C5 witness: operations 0 then 1 then 2 are submitted with no rotation;
operation 1 fails. Only operation 0 is applied and the done channel
carries the wrapped first error. -/
theorem c5_witness :
    appliedIds (startSession none
        (fun n => if n = 1 then some (MErr.external ("boom")) else none)
        ([(0, false)] ++ (1, false) :: [(2, false)]) true none none).1
      = ([((0 : Nat), false)].filter (fun p => !p.2)).map Prod.fst ∧
    (startSession none
        (fun n => if n = 1 then some (MErr.external ("boom")) else none)
        ([(0, false)] ++ (1, false) :: [(2, false)]) true none none).2
      = [some (MErr.wrap ("error receiving writes")
          (MErr.wrap ("error in transaction") (MErr.external ("boom"))))] :=
  c5_first_error_latched
    (fun n => if n = 1 then some (MErr.external ("boom")) else none)
    [(0, false)] [(2, false)] 1 (MErr.external ("boom")) true none none
    (by decide) (by decide)

/-- C6: refuted on the code — when the caller does not signal commit
(commit channel yields false, e.g. closed) the worker aborts the physical
transaction, and if AbortTransaction succeeds the source falls through to
`return nil`: the done channel carries success, not ErrTransactionAborted.
The source returns ErrTransactionAborted only when the abort itself
errors. Concrete input: no start error, no operations, commit signal
false, abort succeeds. -/
theorem c6_abort_success_returns_nil :
    (startSession none (fun _ => none) [] false none none).2 = [none] ∧
    (startSession none (fun _ => none) [] false none none).2
      ≠ [some MErr.txnAborted] ∧
    Act.abortTxn ∈ (startSession none (fun _ => none) [] false none none).1 := by
  decide

/-- C6 amended: when the receive loop latches no operation error, the
worker's terminal behaviour is: on a commit signal with a successful
CommitTransaction it commits the physical transaction and delivers
success; on any other terminal signal it aborts the physical transaction
and delivers success when the abort succeeds, and ErrTransactionAborted
only when the abort itself fails; in each of these cases exactly one
value is delivered on the done channel. -/
theorem c6_terminal_amended (exec : Nat → Option MErr)
    (events : List (Nat × Bool)) (sig : Bool) (commitErr abortErr : Option MErr)
    (hok : (receiveWrites exec events).2 = none) :
    (startSession none exec events sig commitErr abortErr).2.length = 1 ∧
    (sig = true → commitErr = none →
      startSession none exec events sig commitErr abortErr
        = (Act.startTxn :: (receiveWrites exec events).1 ++ [Act.commitTxn], [none])) ∧
    (sig = false → abortErr = none →
      startSession none exec events sig commitErr abortErr
        = (Act.startTxn :: (receiveWrites exec events).1 ++ [Act.abortTxn], [none])) ∧
    (sig = false → ∀ e, abortErr = some e →
      startSession none exec events sig commitErr abortErr
        = (Act.startTxn :: (receiveWrites exec events).1 ++ [Act.abortTxn],
           [some MErr.txnAborted])) := by
  refine ⟨?_, ?_, ?_, ?_⟩
  · cases sig <;> cases commitErr <;> cases abortErr <;> simp [startSession, hok]
  · intro hs hc; subst hs; subst hc; simp [startSession, hok]
  · intro hs ha; subst hs; subst ha; simp [startSession, hok]
  · intro hs e ha; subst hs; subst ha; simp [startSession, hok]

/-- C6 witness: one successfully applied operation followed by a commit
signal with a successful commit: the worker commits and delivers success
exactly once; and with an abort signal whose abort fails, it delivers
ErrTransactionAborted. -/
theorem c6_witness :
    (startSession none (fun _ => none) [(5, false)] true none none).2.length = 1 ∧
    startSession none (fun _ => none) [(5, false)] true none none
      = (Act.startTxn :: (receiveWrites (fun _ => none) [(5, false)]).1 ++ [Act.commitTxn],
         [none]) ∧
    startSession none (fun _ => none) [(5, false)] false none
        (some (MErr.external ("abort failed")))
      = (Act.startTxn :: (receiveWrites (fun _ => none) [(5, false)]).1 ++ [Act.abortTxn],
         [some MErr.txnAborted]) :=
  ⟨(c6_terminal_amended (fun _ => none) [(5, false)] true none none (by decide)).1,
   (c6_terminal_amended (fun _ => none) [(5, false)] true none none (by decide)).2.1 rfl rfl,
   (c6_terminal_amended (fun _ => none) [(5, false)] false none
      (some (MErr.external ("abort failed"))) (by decide)).2.2.2 rfl _ rfl⟩

/-- C1: refuted on the code — the rotation branch drops the operation it
received. Failing input: a single operation (id 0, no failures) arrives
after the lifetime ticker has fired, so the select chooses the ticker
case: the worker commits and restarts the physical transaction, but the
operation received in that very iteration is never applied — the trace
holds no applyOp 0 — even though the loop then finishes with no error and
the transaction is committed as if the write had happened. -/
theorem c1_rotation_drops_queued_op :
    receiveWrites (fun _ => none) [(0, true)] = ([Act.commitTxn, Act.startTxn], none) ∧
    Act.applyOp 0 ∉ [Act.commitTxn, Act.startTxn] := by
  decide

/-- The two backend kinds the dispatcher can select. -/
inductive StorageKind where
  | mongo
  | postgres
  deriving DecidableEq

/-- MongoType constant from src/internal/storage/storage.go (uint8 iota). -/
def MongoType : Nat := 0

/-- PostgresType constant from src/internal/storage/storage.go. -/
def PostgresType : Nat := 1

/-- Embedding of Scheme (src/internal/storage/storage.go, lines 66-75). -/
def Scheme (t : Nat) : String :=
  if t = MongoType then ("mongodb")
  else if t = PostgresType then ("postgresql")
  else ("unknown")

/-- Embedding of DNSNotSupportedError (src/internal/storage/storage.go,
lines 26-28): wraps ErrDNSNotSupported with the offending string. -/
def DNSNotSupportedError (dns : String) : MErr :=
  MErr.dnsNotSupported dns

/-- Substring containment on character lists, the semantics of Go's
strings.Contains for the ASCII scheme tokens used here. -/
def charListInfix (sub : List Char) : List Char → Bool
  | [] => sub.isEmpty
  | c :: rest => sub.isPrefixOf (c :: rest) || charListInfix sub rest

/-- Embedding of strings.Contains as used by New. -/
def strContains (s sub : String) : Bool :=
  charListInfix sub.toList s.toList

/-- Embedding of New (src/internal/storage/storage.go, lines 78-88).
Establishing the actual client connection is external I/O performed by
NewMongo / NewPostgres; `connMongo` / `connPg` are its outcomes (none on
success). NewMongo wraps a connection failure as
"error connecting to mongo: %w" (src/internal/storage/mongo.go, line 34);
the relational constructor's body is outside src, so its error is passed
through unmodelled. -/
def New (connMongo connPg : Option MErr) (dns : String) : Except MErr StorageKind :=
  if strContains dns (Scheme MongoType) then
    match connMongo with
    | some e => Except.error (MErr.wrap ("error connecting to mongo") e)
    | none => Except.ok StorageKind.mongo
  else if strContains dns (Scheme PostgresType) then
    match connPg with
    | some e => Except.error e
    | none => Except.ok StorageKind.postgres
  else
    Except.error (DNSNotSupportedError dns)

/-- C7: refuted on the code as stated — the mongodb check runs first, so a
connection string containing both tokens dispatches to the document
backend even though it contains "postgresql". Concrete input:
"mongodb+postgresql://h" contains "postgresql" yet New returns the
document backend, falsifying "the relational backend if it contains
postgresql". -/
theorem c7_both_schemes_counterexample :
    strContains ("mongodb+postgresql://h") (Scheme PostgresType) = true ∧
    New none none ("mongodb+postgresql://h") = Except.ok StorageKind.mongo := by
  constructor
  · rfl
  · rfl

/-- C7 amended: New returns the document backend whenever the connection
string contains "mongodb" (the document check takes precedence); the
relational backend whenever it contains "postgresql" but not "mongodb";
and otherwise fails with the unsupported-DNS error, whose message names
the offending connection string — it never returns a backend for a string
containing neither token. -/
theorem c7_dispatch_amended (dns : String) :
    (strContains dns (Scheme MongoType) = true →
      New none none dns = Except.ok StorageKind.mongo) ∧
    (strContains dns (Scheme MongoType) = false →
      strContains dns (Scheme PostgresType) = true →
      New none none dns = Except.ok StorageKind.postgres) ∧
    (strContains dns (Scheme MongoType) = false →
      strContains dns (Scheme PostgresType) = false →
      New none none dns = Except.error (DNSNotSupportedError dns) ∧
      errMessage (DNSNotSupportedError dns) = ("dns is not supported: ") ++ dns) := by
  refine ⟨?_, ?_, ?_⟩
  · intro hm; simp [New, hm]
  · intro hm hp; simp [New, hm, hp]
  · intro hm hp; exact ⟨by simp [New, hm, hp], rfl⟩

/-- C7 witness: the three scenario strings of the spec — a postgresql
string dispatches to the relational backend, a mongodb string to the
document backend, and a redis string is rejected with an error naming the
string. -/
theorem c7_witness :
    New none none ("postgresql://u:p@host/db") = Except.ok StorageKind.postgres ∧
    New none none ("mongodb://u:p@host/db") = Except.ok StorageKind.mongo ∧
    New none none ("redis://host") = Except.error (DNSNotSupportedError ("redis://host")) :=
  ⟨(c7_dispatch_amended ("postgresql://u:p@host/db")).2.1 rfl rfl,
   (c7_dispatch_amended ("mongodb://u:p@host/db")).1 rfl,
   ((c7_dispatch_amended ("redis://host")).2.2 rfl rfl).1⟩

/-- Response shape of Mongo.Upsert: the MatchedCount and UpsertedCount
fields of proto.UpsertResponse (int64 in the source). -/
structure UpsertResponse where
  MatchedCount : Int
  UpsertedCount : Int
  deriving DecidableEq

/-- External collaborators of Mongo.Upsert: tools.DecodeUpsertRecords on
the request (records as abstract ids), tools.AssingRecordBSONDocument per
record (the resulting bson document as an abstract id, used as both the
filter and the update of one write model), connstring.ParseAndValidate on
the stored connection string (yielding the database name), and the
driver's BulkWrite over the list of write models, yielding the pair
(MatchedCount, UpsertedCount). -/
structure UpsertDeps where
  decode : Except MErr (List Nat)
  assign : Nat → Except MErr Nat
  parseCS : Except MErr String
  bulkWrite : List Nat → Except MErr (Int × Int)

/-- The write-model construction loop of Mongo.Upsert (lines 183-195):
one update model per record, failing with the wrapped assignment error of
the first record whose bson conversion fails. -/
def buildModels (assign : Nat → Except MErr Nat) : List Nat → Except MErr (List Nat)
  | [] => Except.ok []
  | r :: rest =>
    match assign r with
    | Except.error e =>
        Except.error (MErr.wrap ("failed to assign record to bson document") e)
    | Except.ok d =>
      match buildModels assign rest with
      | Except.error e => Except.error e
      | Except.ok ds => Except.ok (d :: ds)

/-- Embedding of Mongo.Upsert (src/internal/storage/mongo.go, lines
172-215). The second component counts the backend write calls issued (the
single BulkWrite). Zero decoded records return the zero-value response
before any model is built or any backend call made. -/
def Upsert (d : UpsertDeps) : Except MErr UpsertResponse × Nat :=
  match d.decode with
  | Except.error e => (Except.error (MErr.wrap ("failed to decode records") e), 0)
  | Except.ok records =>
    if records.isEmpty then (Except.ok { MatchedCount := 0, UpsertedCount := 0 }, 0)
    else
      match buildModels d.assign records with
      | Except.error e => (Except.error e, 0)
      | Except.ok models =>
        match d.parseCS with
        | Except.error e =>
            (Except.error (MErr.wrap ("failed to parse connection string") e), 0)
        | Except.ok _db =>
          match d.bulkWrite models with
          | Except.error e => (Except.error (MErr.wrap ("bulk write error") e), 1)
          | Except.ok mu =>
              (Except.ok { MatchedCount := mu.1, UpsertedCount := mu.2 }, 1)

/-- C9: an Upsert whose request decodes to zero records succeeds with
matchedCount 0 and upsertedCount 0 and issues no backend write; a
non-empty batch issues exactly one bulk operation whose result's matched
and upserted counts are reported as the two distinct response fields. -/
theorem c9_upsert_counts (d : UpsertDeps) :
    (d.decode = Except.ok [] →
      Upsert d = (Except.ok { MatchedCount := 0, UpsertedCount := 0 }, 0)) ∧
    (∀ recs models db m u,
      d.decode = Except.ok recs → recs ≠ [] →
      buildModels d.assign recs = Except.ok models →
      d.parseCS = Except.ok db →
      d.bulkWrite models = Except.ok (m, u) →
      Upsert d = (Except.ok { MatchedCount := m, UpsertedCount := u }, 1)) := by
  constructor
  · intro h; simp [Upsert, h]
  · intro recs models db m u hdec hne hmod hcs hbw
    simp [Upsert, hdec, List.isEmpty_iff, hne, hmod, hcs, hbw]

/-- C9 witness: a request decoding to no records yields the zero response
with no backend call, and a two-record batch yields one bulk call whose
matched and upserted counts fill the response. -/
theorem c9_witness :
    Upsert { decode := Except.ok [], assign := fun r => Except.ok r,
             parseCS := Except.ok ("db"),
             bulkWrite := fun _ => Except.ok (3, 2) }
      = (Except.ok { MatchedCount := 0, UpsertedCount := 0 }, 0) ∧
    Upsert { decode := Except.ok [7, 8], assign := fun r => Except.ok r,
             parseCS := Except.ok ("db"),
             bulkWrite := fun _ => Except.ok (3, 2) }
      = (Except.ok { MatchedCount := 3, UpsertedCount := 2 }, 1) :=
  ⟨(c9_upsert_counts _).1 rfl,
   (c9_upsert_counts _).2 [7, 8] [7, 8] ("db") 3 2 rfl (by decide) rfl rfl rfl⟩

/-- A Go map[string]string as an association list with unique keys. The
source iterates Go maps in unspecified order; every property proved here
depends only on the final key/value bindings, which are order-independent,
so a canonical list representation is faithful. -/
abbrev QMap := List (String × String)

/-- Go map assignment m[k] = v: replace the binding of k, or append it. -/
def mapSet : QMap → String → String → QMap
  | [], k, v => [(k, v)]
  | p :: rest, k, v =>
    if p.1 = k then (k, v) :: rest else p :: mapSet rest k v

/-- Go map lookup m[k]. -/
def mapGet : QMap → String → Option String
  | [], _ => none
  | p :: rest, k => if p.1 = k then some p.2 else mapGet rest k

/-- Whether k is bound in m. -/
def hasKey : QMap → String → Bool
  | [], _ => false
  | p :: rest, k => p.1 = k || hasKey rest k

/-- The unique-keys invariant of a Go map value. -/
def keysOk : QMap → Bool
  | [] => true
  | p :: rest => !hasKey rest p.1 && keysOk rest

/-- The query-merging loop of newFetchConfig (lines 46-53): each entry of
the request's Query map is Set on the parsed URL's query values. -/
def setAll (base : QMap) : QMap → QMap
  | [] => base
  | p :: rest => setAll (mapSet base p.1 p.2) rest

theorem mapGet_mapSet_self : ∀ (m : QMap) (k v : String),
    mapGet (mapSet m k v) k = some v := by
  intro m k v
  induction m with
  | nil => simp [mapSet, mapGet]
  | cons p rest ih =>
    by_cases h : p.1 = k
    · simp [mapSet, mapGet, h]
    · simp [mapSet, mapGet, h, ih]

theorem mapGet_mapSet_ne : ∀ (m : QMap) (k k' v : String), k' ≠ k →
    mapGet (mapSet m k' v) k = mapGet m k := by
  intro m k k' v hne
  induction m with
  | nil => simp [mapSet, mapGet, hne]
  | cons p rest ih =>
    by_cases h : p.1 = k'
    · have hpk : p.1 ≠ k := by rw [h]; exact hne
      rw [mapSet, if_pos h, mapGet, if_neg hne, mapGet, if_neg hpk]
    · rw [mapSet, if_neg h, mapGet, mapGet, ih]

theorem hasKey_mapSet_iff : ∀ (m : QMap) (k v k' : String),
    hasKey (mapSet m k v) k' = true ↔ (k = k' ∨ hasKey m k' = true) := by
  intro m k v k'
  induction m with
  | nil => simp [mapSet, hasKey]
  | cons p rest ih =>
    by_cases h : p.1 = k
    · rw [mapSet, if_pos h]
      simp [hasKey, h]
    · rw [mapSet, if_neg h]
      simp [hasKey, ih]
      tauto

theorem keysOk_mapSet : ∀ (m : QMap) (k v : String),
    keysOk m = true → keysOk (mapSet m k v) = true := by
  intro m k v
  induction m with
  | nil => intro _; rfl
  | cons p rest ih =>
    intro hok
    simp only [keysOk, Bool.and_eq_true, Bool.not_eq_true'] at hok
    by_cases h : p.1 = k
    · rw [mapSet, if_pos h]
      simp only [keysOk, Bool.and_eq_true, Bool.not_eq_true']
      exact ⟨h ▸ hok.1, hok.2⟩
    · rw [mapSet, if_neg h]
      simp only [keysOk, Bool.and_eq_true, Bool.not_eq_true']
      refine ⟨?_, ih hok.2⟩
      cases hb : hasKey (mapSet rest k v) p.1 with
      | false => rfl
      | true =>
        rcases (hasKey_mapSet_iff rest k v p.1).mp hb with hc | hc
        · exact absurd hc.symm h
        · rw [hok.1] at hc
          exact absurd hc (by simp)

theorem setAll_get_of_absent : ∀ (q : QMap) (base : QMap) (k : String),
    hasKey q k = false → mapGet (setAll base q) k = mapGet base k := by
  intro q
  induction q with
  | nil => intro base k _; simp [setAll]
  | cons p rest ih =>
    intro base k habs
    simp [hasKey] at habs
    rw [setAll, ih (mapSet base p.1 p.2) k (by simp [habs.2]),
      mapGet_mapSet_ne base k p.1 p.2 habs.1]

theorem setAll_get_of_get : ∀ (q : QMap) (base : QMap) (k v : String),
    keysOk q = true → mapGet q k = some v → mapGet (setAll base q) k = some v := by
  intro q
  induction q with
  | nil => intro base k v _ hg; simp [mapGet] at hg
  | cons p rest ih =>
    intro base k v hok hg
    simp [keysOk] at hok
    by_cases h : p.1 = k
    · rw [mapGet, if_pos h] at hg
      have habs : hasKey rest k = false := by
        have := hok.1
        rwa [h] at this
      rw [setAll, setAll_get_of_absent rest (mapSet base p.1 p.2) k habs, h,
        mapGet_mapSet_self]
      exact hg
    · rw [mapGet, if_neg h] at hg
      rw [setAll]
      exact ih (mapSet base p.1 p.2) k v hok.2 hg

/-- Result of an embedded Go function: a normal return value, a returned
error, or a runtime panic (nil-pointer dereference / nil-map write). -/
inductive Outcome (α : Type) where
  | ok (a : α)
  | err (e : MErr)
  | panic
  deriving DecidableEq

/-- A parsed net/url URL, reduced to what request.go observes: the joined
base (scheme, host and path, opaque here) and the decoded query values. -/
structure URLv where
  base : String
  query : QMap
  deriving DecidableEq

/-- External collaborators of the flattener: url.JoinPath, url.Parse and
time.Time.Format, modelled as pure oracles. `format layout t` is
t.Format(layout) for the time value t. -/
structure NetOps where
  joinPath : String → String → Except MErr String
  parse : String → Except MErr URLv
  format : String → Nat → String

/-- The RateLimitConfig of a Request: Period (*time.Duration) and Burst
(*int) pointers, none when nil. Field shape as dereferenced by
newFetchConfig; time.Duration is an opaque tick count. -/
structure RateLimitConfig where
  Period : Option Nat
  Burst : Option Nat
  deriving DecidableEq

/-- Modelled from the spec: the timeseries struct of package transport is
declared outside src/ (only src/internal/transport/request.go uses it).
Per the spec's TimeseriesSpec and the uses in flattenTimeseries: StartName
and EndName are the query parameter keys to populate, Layout is the
*string time layout, and chunks is the ordered list of (start, end)
timestamp pairs; time values are opaque ticks. -/
structure Timeseries where
  StartName : String
  EndName : String
  Layout : Option String
  chunks : List (Nat × Nat)
  deriving DecidableEq

/-- Embedding of transport.Request (src/internal/transport/request.go,
lines 12-31). Query is Option-valued to distinguish a nil Go map (writing
to which panics) from an empty one. -/
structure Request where
  Method : String
  Endpoint : String
  Query : Option QMap
  Timeseries : Option Timeseries
  Table : Option String
  RateLimitConfig : Option RateLimitConfig
  deriving DecidableEq

/-- Embedding of web.FetchConfig as filled by newFetchConfig: method, the
resolved URL, and the identity of the rate.Limiter instance created for
it. Limiter instances are numbered by an allocation counter so that
sharing (same instance) versus re-creation (fresh instance) is
observable. The HTTP client handle is external and carried implicitly. -/
structure FetchConfig where
  Method : String
  URL : URLv
  RateLimiter : Nat
  deriving DecidableEq

/-- Embedding of transport.flattenedRequest (lines 70-73). -/
structure FlattenedRequest where
  fetchConfig : FetchConfig
  table : Option String
  deriving DecidableEq

/-- Embedding of Request.newFetchConfig (src/internal/transport/request.go,
lines 34-66): join the base URI and endpoint, parse, merge the request's
query map into the URL query, then build the fetch config with a freshly
constructed rate.Limiter. `nextID` is the limiter allocation counter; the
source dereferences req.RateLimitConfig and its Period and Burst pointers
unconditionally, so their absence is a panic, not an error. -/
def newFetchConfig (ops : NetOps) (req : Request) (rawURI : String) (nextID : Nat) :
    Outcome (FetchConfig × Nat) :=
  match ops.joinPath rawURI req.Endpoint with
  | Except.error e => Outcome.err (MErr.wrap ("failed to join URI and endpoint") e)
  | Except.ok joined =>
    match ops.parse joined with
    | Except.error e => Outcome.err (MErr.wrap ("failed to parse URL") e)
    | Except.ok uri0 =>
      let uri : URLv :=
        match req.Query with
        | none => uri0
        | some q => { uri0 with query := setAll uri0.query q }
      match req.RateLimitConfig with
      | none => Outcome.panic
      | some cfg =>
        match cfg.Period, cfg.Burst with
        | some _, some _ =>
            Outcome.ok ({ Method := req.Method, URL := uri, RateLimiter := nextID },
              nextID + 1)
        | _, _ => Outcome.panic

/-- Embedding of Request.flatten (lines 77-87). -/
def flatten (ops : NetOps) (req : Request) (rawURI : String) (nextID : Nat) :
    Outcome (FlattenedRequest × Nat) :=
  match newFetchConfig ops req rawURI nextID with
  | Outcome.panic => Outcome.panic
  | Outcome.err e => Outcome.err (MErr.wrap ("failed to create fetch config") e)
  | Outcome.ok fc =>
      Outcome.ok ({ fetchConfig := fc.1, table := req.Table }, fc.2)

/-- The chunk loop of Request.flattenTimeseries (lines 105-120). The Go
`chunkReq := req` copies the *Request pointer, so every iteration writes
the chunk boundaries into the one shared Query map; the threaded `q` is
that shared map's contents. Dereferencing a nil Layout pointer panics. -/
def ftLoop (ops : NetOps) (req : Request) (ts : Timeseries) (rawURI : String) :
    List (Nat × Nat) → QMap → Nat → Outcome (List FlattenedRequest × QMap × Nat)
  | [], q, nid => Outcome.ok ([], q, nid)
  | c :: rest, q, nid =>
    match ts.Layout with
    | none => Outcome.panic
    | some layout =>
      let q1 := mapSet (mapSet q ts.StartName (ops.format layout c.1))
        ts.EndName (ops.format layout c.2)
      match newFetchConfig ops { req with Query := some q1 } rawURI nid with
      | Outcome.panic => Outcome.panic
      | Outcome.err e => Outcome.err (MErr.wrap ("failed to create fetch config") e)
      | Outcome.ok fc =>
        match ftLoop ops req ts rawURI rest q1 fc.2 with
        | Outcome.panic => Outcome.panic
        | Outcome.err e => Outcome.err e
        | Outcome.ok r =>
            Outcome.ok ({ fetchConfig := fc.1, table := req.Table } :: r.1, r.2)

/-- Embedding of Request.flattenTimeseries (src/internal/transport/
request.go, lines 92-123). The middle component of a successful result is
the request's Query map as the caller observes it after the call: the
chunk loop mutates the original map in place, so it is the threaded final
map; without a timeseries it is returned untouched. Writing the first
chunk's boundaries into a nil Query map panics. -/
def flattenTimeseries (ops : NetOps) (req : Request) (rawURI : String) (nextID : Nat) :
    Outcome (List FlattenedRequest × Option QMap × Nat) :=
  match req.Timeseries with
  | none =>
    match flatten ops req rawURI nextID with
    | Outcome.panic => Outcome.panic
    | Outcome.err e => Outcome.err (MErr.wrap ("failed to flatten request") e)
    | Outcome.ok fr => Outcome.ok ([fr.1], req.Query, fr.2)
  | some ts =>
    match req.Query with
    | none =>
      match ts.chunks with
      | [] => Outcome.ok ([], none, nextID)
      | _ :: _ => Outcome.panic
    | some q0 =>
      match ftLoop ops req ts rawURI ts.chunks q0 nextID with
      | Outcome.panic => Outcome.panic
      | Outcome.err e => Outcome.err e
      | Outcome.ok r => Outcome.ok (r.1, some r.2.1, r.2.2)

/-- Abbreviation for the fetch config newFetchConfig builds. -/
def mkFC (m : String) (u : URLv) (n : Nat) : FetchConfig :=
  { Method := m, URL := u, RateLimiter := n }

/-- Abbreviation for a flattened request. -/
def mkFR (fc : FetchConfig) (t : Option String) : FlattenedRequest :=
  { fetchConfig := fc, table := t }

theorem ftLoop_ok (ops : NetOps) (req : Request) (ts : Timeseries)
    (rawURI joined layout : String) (uri0 : URLv) (p b : Nat)
    (hlay : ts.Layout = some layout)
    (hne : ts.StartName ≠ ts.EndName)
    (hcfg : req.RateLimitConfig = some { Period := some p, Burst := some b })
    (hjoin : ops.joinPath rawURI req.Endpoint = Except.ok joined)
    (hparse : ops.parse joined = Except.ok uri0) :
    ∀ (chunks : List (Nat × Nat)) (q : QMap) (nid : Nat), keysOk q = true →
      ∃ reqs qF nidF,
        ftLoop ops req ts rawURI chunks q nid = Outcome.ok (reqs, qF, nidF) ∧
        reqs.length = chunks.length ∧ keysOk qF = true ∧
        ∀ i, i < chunks.length →
          ∃ fr c, reqs[i]? = some fr ∧ chunks[i]? = some c ∧
            mapGet fr.fetchConfig.URL.query ts.StartName
              = some (ops.format layout c.1) ∧
            mapGet fr.fetchConfig.URL.query ts.EndName
              = some (ops.format layout c.2) := by
  intro chunks
  induction chunks with
  | nil =>
    intro q nid hq
    exact ⟨[], q, nid, by simp [ftLoop], rfl, hq, fun i hi => absurd hi (by simp)⟩
  | cons c rest ih =>
    intro q nid hq
    set vs := ops.format layout c.1 with hvs
    set ve := ops.format layout c.2 with hve
    set q1 := mapSet (mapSet q ts.StartName vs) ts.EndName ve with hq1def
    have hq1 : keysOk q1 = true :=
      keysOk_mapSet _ _ _ (keysOk_mapSet _ _ _ hq)
    have hgS : mapGet q1 ts.StartName = some vs := by
      rw [hq1def, mapGet_mapSet_ne _ _ _ _ (Ne.symm hne), mapGet_mapSet_self]
    have hgE : mapGet q1 ts.EndName = some ve := mapGet_mapSet_self _ _ _
    set uriX : URLv := { uri0 with query := setAll uri0.query q1 } with huriX
    have hnfc : newFetchConfig ops { req with Query := some q1 } rawURI nid
        = Outcome.ok (mkFC req.Method uriX nid, nid + 1) := by
      simp [newFetchConfig, hjoin, hparse, hcfg, mkFC, huriX]
    obtain ⟨reqs', qF, nidF, hft, hlen, hkF, hidx⟩ := ih q1 (nid + 1) hq1
    refine ⟨mkFR (mkFC req.Method uriX nid) req.Table :: reqs', qF, nidF, ?_, ?_, hkF, ?_⟩
    · simp [ftLoop, hlay, hnfc, hft, hq1def, mkFR]
    · simpa using hlen
    · intro i hi
      cases i with
      | zero =>
        refine ⟨mkFR (mkFC req.Method uriX nid) req.Table, c, by simp, by simp, ?_, ?_⟩
        · exact setAll_get_of_get q1 uri0.query ts.StartName vs hq1 hgS
        · exact setAll_get_of_get q1 uri0.query ts.EndName ve hq1 hgE
      | succ j =>
        have hj : j < rest.length := by
          simpa using Nat.lt_of_succ_lt_succ (by simpa using hi)
        obtain ⟨fr, cc, h1, h2, h3, h4⟩ := hidx j hj
        exact ⟨fr, cc, by simpa using h1, by simpa using h2, h3, h4⟩

/-- C2: for a request with a timeseries spec of n chunks (the Query map
present with unique keys, distinct start/end parameter names, a non-nil
layout and rate-limit config, and the URL join and parse of the
collaborators succeeding), flattenTimeseries returns exactly n flattened
requests, in chunk order, and the i-th one's URL query binds StartName to
the i-th chunk's start and EndName to the i-th chunk's end, each formatted
with the declared layout. -/
theorem c2_flatten_timeseries_chunks (ops : NetOps) (req : Request)
    (ts : Timeseries) (rawURI joined layout : String) (uri0 : URLv) (q0 : QMap)
    (p b : Nat) (nid : Nat)
    (hts : req.Timeseries = some ts)
    (hq : req.Query = some q0)
    (hq0 : keysOk q0 = true)
    (hne : ts.StartName ≠ ts.EndName)
    (hlay : ts.Layout = some layout)
    (hcfg : req.RateLimitConfig = some { Period := some p, Burst := some b })
    (hjoin : ops.joinPath rawURI req.Endpoint = Except.ok joined)
    (hparse : ops.parse joined = Except.ok uri0) :
    ∃ reqs qF nidF,
      flattenTimeseries ops req rawURI nid = Outcome.ok (reqs, some qF, nidF) ∧
      reqs.length = ts.chunks.length ∧
      ∀ i, i < ts.chunks.length →
        ∃ fr c, reqs[i]? = some fr ∧ ts.chunks[i]? = some c ∧
          mapGet fr.fetchConfig.URL.query ts.StartName
            = some (ops.format layout c.1) ∧
          mapGet fr.fetchConfig.URL.query ts.EndName
            = some (ops.format layout c.2) := by
  obtain ⟨reqs, qF, nidF, hft, hlen, _, hidx⟩ :=
    ftLoop_ok ops req ts rawURI joined layout uri0 p b hlay hne hcfg hjoin hparse
      ts.chunks q0 nid hq0
  exact ⟨reqs, qF, nidF, by simp [flattenTimeseries, hts, hq, hft], hlen, hidx⟩

/-- Concrete collaborator oracles for witnesses: join is concatenation,
parsing yields an empty base query, and formatting appends the decimal
time to the layout. -/
def opsW : NetOps where
  joinPath := fun a e => Except.ok (a ++ e)
  parse := fun s => Except.ok { base := s, query := [] }
  format := fun l t => l ++ Nat.repr t

/-- Concrete two-chunk timeseries spec for witnesses. -/
def tsW : Timeseries where
  StartName := ("start")
  EndName := ("end")
  Layout := some ("L")
  chunks := [(1, 2), (2, 3)]

/-- Concrete request carrying tsW, an empty (non-nil) Query map and a
populated rate-limit config. -/
def reqW : Request where
  Method := ("GET")
  Endpoint := ("/e")
  Query := some []
  Timeseries := some tsW
  Table := some ("t")
  RateLimitConfig := some { Period := some 1, Burst := some 1 }

/-- C2 witness: flattening reqW against base URI "u" yields two flattened
requests whose query bindings are the two chunks' formatted boundaries. -/
theorem c2_witness :
    ∃ reqs qF nidF,
      flattenTimeseries opsW reqW ("u") 0 = Outcome.ok (reqs, some qF, nidF) ∧
      reqs.length = tsW.chunks.length ∧
      ∀ i, i < tsW.chunks.length →
        ∃ fr c, reqs[i]? = some fr ∧ tsW.chunks[i]? = some c ∧
          mapGet fr.fetchConfig.URL.query tsW.StartName
            = some (opsW.format ("L") c.1) ∧
          mapGet fr.fetchConfig.URL.query tsW.EndName
            = some (opsW.format ("L") c.2) :=
  c2_flatten_timeseries_chunks opsW reqW tsW ("u") ("u" ++ ("/e")) ("L")
    { base := ("u") ++ ("/e"), query := [] } [] 1 1 0
    rfl rfl rfl (by decide) rfl rfl rfl rfl

/-- The flattened-request list of a successful flattenTimeseries result. -/
def outReqs : Outcome (List FlattenedRequest × Option QMap × Nat) →
    Option (List FlattenedRequest)
  | Outcome.ok r => some r.1
  | _ => none

/-- The request's Query map as left behind by flattenTimeseries. -/
def outQuery : Outcome (List FlattenedRequest × Option QMap × Nat) →
    Option (Option QMap)
  | Outcome.ok r => some r.2.1
  | _ => none

/-- C3: refuted on the code — the rate.Limiter is constructed inside
newFetchConfig, which flattenTimeseries calls once per chunk, so every
chunk receives a freshly constructed limiter instance rather than sharing
one. Failing input: reqW with its two chunks; the two flattened requests
carry distinct limiter instances (allocation ids 0 and 1), contradicting
the source's own comment that all flattenedRequests must share the same
rate limiter. -/
theorem c3_limiter_fresh_per_chunk :
    (outReqs (flattenTimeseries opsW reqW ("u") 0)).map
        (List.map (fun fr => fr.fetchConfig.RateLimiter)) = some [0, 1] ∧
    (0 : Nat) ≠ 1 := by
  constructor
  · rfl
  · decide

/-- C4: refuted on the code — `chunkReq := req` copies the *Request
pointer, so all chunks write into the one shared Query map and the input
Request's own Query map is mutated by flattening. Failing input: reqW,
whose Query starts as the empty (non-nil) map; after flattening, the map
the Request holds contains the last chunk's formatted boundaries. -/
theorem c4_flatten_mutates_request_query :
    reqW.Query = some [] ∧
    outQuery (flattenTimeseries opsW reqW ("u") 0)
      = some (some [(("start"), ("L2")), (("end"), ("L3"))]) ∧
    some [(("start"), ("L2")), (("end"), ("L3"))] ≠ (some [] : Option QMap) := by
  refine ⟨rfl, rfl, ?_⟩
  decide

/-- reqW with a nil rate-limit config: flattening it must dereference a
nil pointer. -/
def reqNoRL : Request :=
  { reqW with RateLimitConfig := none }

/-- C8: refuted on the code as stated — when timeseries chunking is
requested and the rate-limit configuration is absent, newFetchConfig
dereferences the nil RateLimitConfig pointer, so flattening crashes
instead of returning an error. Concrete input: reqNoRL (timeseries with
two chunks, RateLimitConfig nil) with collaborators that join and parse
successfully. -/
theorem c8_missing_rate_limit_panics :
    flattenTimeseries opsW reqNoRL ("u") 0 = Outcome.panic := by
  rfl

/-- C8 amended: URL join and parse failures during timeseries flattening
are reported synchronously as a wrapped error return carrying no partial
request list; but the absence of the rate-limit configuration is not
checked — with join and parse succeeding it crashes with a nil-pointer
dereference rather than returning an error. -/
theorem c8_errors_amended (ops : NetOps) (req : Request) (ts : Timeseries)
    (q0 : QMap) (layout rawURI : String) (nid : Nat) (c : Nat × Nat)
    (rest : List (Nat × Nat))
    (hts : req.Timeseries = some ts)
    (hq : req.Query = some q0)
    (hlay : ts.Layout = some layout)
    (hchunks : ts.chunks = c :: rest) :
    (∀ e, ops.joinPath rawURI req.Endpoint = Except.error e →
      flattenTimeseries ops req rawURI nid
        = Outcome.err (MErr.wrap ("failed to create fetch config")
            (MErr.wrap ("failed to join URI and endpoint") e))) ∧
    (∀ joined e, ops.joinPath rawURI req.Endpoint = Except.ok joined →
      ops.parse joined = Except.error e →
      flattenTimeseries ops req rawURI nid
        = Outcome.err (MErr.wrap ("failed to create fetch config")
            (MErr.wrap ("failed to parse URL") e))) ∧
    (∀ joined uri0, ops.joinPath rawURI req.Endpoint = Except.ok joined →
      ops.parse joined = Except.ok uri0 →
      req.RateLimitConfig = none →
      flattenTimeseries ops req rawURI nid = Outcome.panic) := by
  refine ⟨?_, ?_, ?_⟩
  · intro e hj
    simp [flattenTimeseries, hts, hq, hchunks, ftLoop, hlay, newFetchConfig, hj]
  · intro joined e hj hp
    simp [flattenTimeseries, hts, hq, hchunks, ftLoop, hlay, newFetchConfig, hj, hp]
  · intro joined uri0 hj hp hrl
    simp [flattenTimeseries, hts, hq, hchunks, ftLoop, hlay, newFetchConfig, hj, hp, hrl]

/-- Collaborator oracle whose URL join always fails. -/
def opsJoinFail : NetOps where
  joinPath := fun _ _ => Except.error (MErr.external ("bad join"))
  parse := fun s => Except.ok { base := s, query := [] }
  format := fun l t => l ++ Nat.repr t

/-- C8 witness: with a failing join, flattening reqW returns the wrapped
join error synchronously; and with successful join and parse but a nil
rate-limit config, flattening reqNoRL crashes. -/
theorem c8_witness :
    flattenTimeseries opsJoinFail reqW ("u") 0
      = Outcome.err (MErr.wrap ("failed to create fetch config")
          (MErr.wrap ("failed to join URI and endpoint") (MErr.external ("bad join")))) ∧
    flattenTimeseries opsW reqNoRL ("u") 0 = Outcome.panic :=
  ⟨(c8_errors_amended opsJoinFail reqW tsW [] ("L") ("u") 0 (1, 2) [(2, 3)]
      rfl rfl rfl rfl).1 (MErr.external ("bad join")) rfl,
   (c8_errors_amended opsW reqNoRL tsW [] ("L") ("u") 0 (1, 2) [(2, 3)]
      rfl rfl rfl rfl).2.2 (("u") ++ ("/e")) { base := ("u") ++ ("/e"), query := [] }
      rfl rfl rfl⟩

end Gidari
